import Mathlib

/-!
Verification development for the tc-finder training-sample extractor
(src/training-images.py, with goes.py and ibtracs.py as collaborators).

The embedding models, directly from the source:
  * Python slice semantics `a[c-b : c+b]` on an axis of length `n`
    (negative start indices wrap around, both ends clamp to `[0, n]`),
    used by `crop_image` (lines 46-49) and by the occupancy-mask
    reads/writes (lines 140, 153, 163);
  * the shape unpacking `nx, ny = ds.Rad.shape` (line 102) and the mask
    creation `free = np.ones((ny, nx))` (line 103);
  * the per-raster sampling state machine: positive marks (lines 116-140),
    the negative sampling while-loop with its attempt cap (lines 143-171);
  * the nearest-pixel search `np.nanargmin(abs(axis - t))` (lines 129-130)
    on NaN-free axes, and the pixel locator built from it;
  * the per-timestamp try/except driver loop (lines 72-177), with the
    external collaborators (raster fetch, artifact sink) abstracted by
    their success/failure outcomes.

The raster grid has numpy shape `(rows, cols)`: `rows` rows (the y axis)
and `cols` columns (the x axis).  A mask cell is `true` when still free
(the source stores `1.0`) and `false` when occupied (the source stores `0`).
-/

namespace TCFinder

/-- Python index resolution for a slice endpoint `i` on an axis of length
`n` (step 1): a negative index wraps by adding `n` and then clamps at `0`;
a non-negative index clamps at `n`. -/
def pyIdx (n : Nat) (i : Int) : Nat :=
  if i < 0 then ((n : Int) + i).toNat else min i.toNat n

/-- The set of axis indices selected by the Python slice
`[c - b : c + b]` on an axis of length `n` — the window used by
`crop_image` and by the occupancy-mask reads/writes. -/
def window (n c b : Nat) : Finset Nat :=
  Finset.Ico (pyIdx n ((c : Int) - (b : Int))) (pyIdx n ((c : Int) + (b : Int)))

/-- Line 102 `nx, ny = ds.Rad.shape`: the variable `nx` receives the first
component of the numpy shape, which is the number of rows. -/
def nxOf (rows cols : Nat) : Nat := rows

/-- Line 102 `nx, ny = ds.Rad.shape`: the variable `ny` receives the second
component of the numpy shape, which is the number of columns. -/
def nyOf (rows cols : Nat) : Nat := cols

/-- Line 103 `free = np.ones((ny, nx))`: the shape of the occupancy mask,
built from the unpacked `ny` and `nx`. -/
def freeShape (rows cols : Nat) : Nat × Nat := (nyOf rows cols, nxOf rows cols)

/-- Shape of the crop `ds.Rad[yInd-buffer:yInd+buffer, xInd-buffer:xInd+buffer]`
(crop_image, line 46): the raster has `rows` rows and `cols` columns. -/
def cropShape (rows cols yInd xInd b : Nat) : Nat × Nat :=
  ((window rows yInd b).card, (window cols xInd b).card)

/-- crop_image lines 49-59: the crop artifacts are produced iff `0 not in
data.shape`, i.e. both dimensions of the sliced sub-grid are non-empty. -/
def cropSaved (rows cols yInd xInd b : Nat) : Bool :=
  decide ((window rows yInd b).Nonempty ∧ (window cols xInd b).Nonempty)

/-- Footprint of the crop taken from the raster `ds.Rad` for center
`(yInd, xInd)` and buffer `b`: the cell set selected on a grid of shape
`(rows, cols)`. -/
def radWindow (rows cols yInd xInd b : Nat) : Finset (Nat × Nat) :=
  window rows yInd b ×ˢ window cols xInd b

/-- Cell set selected by `free[yInd-buffer:yInd+buffer, xInd-buffer:xInd+buffer]`:
the mask `free` has shape `(ny, nx)` with `nx, ny` as unpacked on line 102. -/
def freeWindow (rows cols yInd xInd b : Nat) : Finset (Nat × Nat) :=
  window (nyOf rows cols) yInd b ×ˢ window (nxOf rows cols) xInd b

/-- The freshly created mask: every cell holds `1.0`, i.e. is free. -/
def initFree : Nat → Nat → Bool := fun _ _ => true

/-- Lines 140 and 163 `free[yInd-buffer:yInd+buffer, xInd-buffer:xInd+buffer] = 0`:
set every cell of the mask window to occupied. -/
def markFree (rows cols : Nat) (f : Nat → Nat → Bool) (yInd xInd b : Nat) :
    Nat → Nat → Bool :=
  fun i j =>
    if i ∈ window (nyOf rows cols) yInd b ∧ j ∈ window (nxOf rows cols) xInd b then
      false
    else f i j

/-- Line 153 `(free[yInd-buffer:yInd+buffer, xInd-buffer:xInd+buffer] == 1).all()`:
true iff every cell of the mask window is still free (vacuously true on an
empty window, as numpy `all` is on an empty array). -/
def isFree (rows cols : Nat) (f : Nat → Nat → Bool) (yInd xInd b : Nat) : Bool :=
  decide (∀ p ∈ freeWindow rows cols yInd xInd b, f p.1 p.2 = true)

/-- The occupied cells of the mask: cells inside the mask's own shape
`(ny, nx)` whose value is `0`. -/
def markedSet (rows cols : Nat) (f : Nat → Nat → Bool) : Finset (Nat × Nat) :=
  (Finset.range (nyOf rows cols) ×ˢ Finset.range (nxOf rows cols)).filter
    fun p => f p.1 p.2 = false

/-- State of the per-raster sampling process: the mask, the footprints of
the crops actually saved (positive and negative), and the two counters of
the negative-sampling loop. -/
structure SampState where
  free : Nat → Nat → Bool
  posFoot : List (Finset (Nat × Nat))
  negFoot : List (Finset (Nat × Nat))
  negCount : Nat
  attemptCount : Nat

/-- State at the start of a raster's processing: fresh all-free mask, no
footprints, both counters zero (lines 103, 143, 145). -/
def initState : SampState :=
  ⟨initFree, [], [], 0, 0⟩

/-- One iteration of the positive phase (lines 116-140): save the crop when
its sliced shape has no zero dimension, then mark the mask window. -/
def posStep (rows cols b yInd xInd : Nat) (s : SampState) : SampState :=
  { s with
    posFoot :=
      if cropSaved rows cols yInd xInd b then
        radWindow rows cols yInd xInd b :: s.posFoot
      else s.posFoot
    free := markFree rows cols s.free yInd xInd b }

/-- The whole positive phase: one `posStep` per track point, in dataframe
row order. -/
def posPhase (rows cols b : Nat) (pts : List (Nat × Nat)) (s : SampState) : SampState :=
  pts.foldl (fun t p => posStep rows cols b p.1 p.2 t) s

/-- Body of the negative-phase acceptance test (lines 153-166): if the mask
window is all free, save the crop (when non-empty), mark the window, and
advance `negativeCount`; otherwise discard the draw. -/
def negStep (rows cols b xInd yInd : Nat) (s : SampState) : SampState :=
  if isFree rows cols s.free yInd xInd b = true then
    { s with
      negFoot :=
        if cropSaved rows cols yInd xInd b then
          radWindow rows cols yInd xInd b :: s.negFoot
        else s.negFoot
      free := markFree rows cols s.free yInd xInd b
      negCount := s.negCount + 1 }
  else s

/-- One full iteration of the negative while-loop body on a drawn pixel
`(xInd, yInd)`: the acceptance test followed by `attemptCount += 1`
(line 169). -/
def negAttempt (rows cols b xInd yInd : Nat) (s : SampState) : SampState :=
  { negStep rows cols b xInd yInd s with attemptCount := s.attemptCount + 1 }

/-- One iteration of the negative while-loop with the random draws modelled
as a stream indexed by the attempt number (lines 149-150). -/
def negIter (rows cols b : Nat) (draws : Nat → Nat × Nat) (s : SampState) : SampState :=
  negAttempt rows cols b (draws s.attemptCount).1 (draws s.attemptCount).2 s

/-- The negative-sampling while-loop (lines 146-171), truncated at `fuel`
iterations: loop while `negativeCount < target`; after each iteration break
when `attemptCount > maxA`. -/
def negLoopF (rows cols b target maxA : Nat) (draws : Nat → Nat × Nat) :
    Nat → SampState → SampState
  | 0, s => s
  | fuel + 1, s =>
    if s.negCount < target then
      let s1 := negIter rows cols b draws s
      if maxA < s1.attemptCount then s1
      else negLoopF rows cols b target maxA draws fuel s1
    else s

/-- The negative phase as run by the program: `maxAttemptCount = 5 * target`
(line 144), and `5 * target + 1` iterations are enough fuel for the loop to
reach one of its two exit conditions (proved below). -/
def negPhase (rows cols b target : Nat) (draws : Nat → Nat × Nat) (s : SampState) :
    SampState :=
  negLoopF rows cols b target (5 * target) draws (5 * target + 1) s

/-- States reachable during the positive phase of one raster: any sequence
of positive marks at pixel indices returned by the nearest-pixel search
(row index below the y-axis length `rows`, column index below the x-axis
length `cols`). -/
inductive ReachP (rows cols b : Nat) : SampState → Prop
  | init : ReachP rows cols b initState
  | pos (s : SampState) (yInd xInd : Nat) (hs : ReachP rows cols b s)
      (hy : yInd < rows) (hx : xInd < cols) :
      ReachP rows cols b (posStep rows cols b yInd xInd s)

/-- States reachable at any point of one raster's processing: a positive
phase followed by any number of negative-loop iterations whose draws
satisfy the `np.random.randint(buffer, nx-buffer)` /
`np.random.randint(buffer, ny-buffer)` bounds of lines 149-150. -/
inductive Reach (rows cols b : Nat) : SampState → Prop
  | ofPos (s : SampState) (hs : ReachP rows cols b s) : Reach rows cols b s
  | neg (s : SampState) (xInd yInd : Nat) (hs : Reach rows cols b s)
      (hx1 : b ≤ xInd) (hx2 : xInd + b < nxOf rows cols)
      (hy1 : b ≤ yInd) (hy2 : yInd + b < nyOf rows cols) :
      Reach rows cols b (negAttempt rows cols b xInd yInd s)

/-- Union of a list of crop footprints. -/
def unionFoot (l : List (Finset (Nat × Nat))) : Finset (Nat × Nat) :=
  l.foldr (· ∪ ·) ∅

/-- The claimed cross-invariant between the mask and the samples: the
occupied cells are exactly the union of the saved crop footprints, and the
accepted negative footprints are pairwise disjoint and disjoint from every
positive footprint. -/
def C1Inv (rows cols : Nat) (s : SampState) : Prop :=
  markedSet rows cols s.free = unionFoot s.posFoot ∪ unionFoot s.negFoot ∧
  s.negFoot.Pairwise Disjoint ∧
  ∀ F ∈ s.negFoot, ∀ G ∈ s.posFoot, Disjoint F G

/-- The property claimed of every negative draw: the crop window is the
full unclipped `[ind - b, ind + b)` in both axes and lies inside the raster
bounds. -/
def negCropUnclipped (rows cols yInd xInd b : Nat) : Prop :=
  window rows yInd b = Finset.Ico (yInd - b) (yInd + b) ∧ yInd + b ≤ rows ∧
  window cols xInd b = Finset.Ico (xInd - b) (xInd + b) ∧ xInd + b ≤ cols

instance (rows cols yInd xInd b : Nat) : Decidable (negCropUnclipped rows cols yInd xInd b) := by
  unfold negCropUnclipped
  infer_instance

/-- Executable absolute value on the rationals (numpy `abs`). -/
def absQ (q : ℚ) : ℚ :=
  if q < 0 then -q else q

/-- Model of `np.nanargmin(abs(axis - t))` on a NaN-free axis: the value
`some (i, m)` gives the first index `i` attaining the minimum `m` of the
absolute differences; `none` on an empty axis (where numpy raises). -/
def nanargmin (t : ℚ) : List ℚ → Option (Nat × ℚ)
  | [] => none
  | a :: l =>
    match nanargmin t l with
    | none => some (0, absQ (a - t))
    | some (j, m) => if absQ (a - t) ≤ m then some (0, absQ (a - t)) else some (j + 1, m)

/-- Lines 129-130: the pixel locator resolves the projected planar
coordinates against the raster's x and y axes independently. -/
def pixelLocate (xs ys : List ℚ) (tX tY : ℚ) : Option (Nat × Nat) :=
  match nanargmin tX xs, nanargmin tY ys with
  | some (xi, _), some (yi, _) => some (xi, yi)
  | _, _ => none

/-- Abstract outcome of one timestamp's processing inputs (lines 83-177):
whether the raster fetch (goes.download_data, line 86) succeeds, the
sequence of crop artifacts the iteration would persist, and the outcome of
each artifact-sink call (crop_image's netCDF/PNG writes). -/
structure DateInput where
  fetchOk : Bool
  crops : List Nat
  saveOk : Nat → Bool

/-- The crop-persisting part of the try-block: artifacts are emitted in
order until a sink call raises; an exception aborts the rest of the
timestamp's work but already-persisted artifacts remain. -/
def emitSaves (saveOk : Nat → Bool) : List Nat → List Nat × Bool
  | [] => ([], false)
  | c :: l =>
    if saveOk c then
      let r := emitSaves saveOk l
      (c :: r.1, r.2)
    else ([], true)

/-- One timestamp's try-block (lines 83-177): a failed raster fetch raises
before any sample is produced; otherwise the crops are persisted until the
first sink failure.  The boolean records whether an exception was caught by
the per-timestamp except-branch (which logs it, line 177). -/
def processDate (d : DateInput) : List Nat × Bool :=
  if d.fetchOk then emitSaves d.saveOk d.crops else ([], true)

/-- The outer driver loop (line 72): every timestamp is processed; a caught
exception never aborts the batch. -/
def runBatch (dates : List DateInput) : List (List Nat × Bool) :=
  dates.map processDate

/-- Log output of one timestamp: the except-branch logs exactly when an
exception was caught (line 177). -/
def dateLog (d : DateInput) : List String :=
  if (processDate d).2 then ["Error saving image"] else []

/-! ### Helper lemmas about Python slice windows -/

theorem pyIdx_le (n : Nat) (i : Int) : pyIdx n i ≤ n := by
  unfold pyIdx
  split <;> omega

theorem window_subset_range (n c b : Nat) : window n c b ⊆ Finset.range n := by
  intro k hk
  simp only [window, Finset.mem_Ico] at hk
  exact Finset.mem_range.mpr (lt_of_lt_of_le hk.2 (pyIdx_le n _))

theorem window_eq_of_le (n c b : Nat) (h : b ≤ c) :
    window n c b = Finset.Ico (c - b) (min (c + b) n) := by
  ext k
  simp only [window, pyIdx, Finset.mem_Ico]
  split_ifs <;> omega

theorem window_eq_empty_low (n c b : Nat) (h1 : c < b) (h2 : 2 * b ≤ n) :
    window n c b = ∅ := by
  unfold window
  apply Finset.Ico_eq_empty
  unfold pyIdx
  split_ifs <;> omega

theorem window_eq_full (n c b : Nat) (h1 : b ≤ c) (h2 : c + b ≤ n) :
    window n c b = Finset.Ico (c - b) (c + b) := by
  rw [window_eq_of_le n c b h1]
  congr 1
  omega

theorem window_card_le (n c b : Nat) (h : b ≤ c) : (window n c b).card ≤ 2 * b := by
  rw [window_eq_of_le n c b h, Nat.card_Ico]
  omega

/-- C3.  The claim says crop extraction clips the window
`[row-buffer, row+buffer) × [col-buffer, col+buffer)` to raster bounds on
both sides, so that a center at the raster's low edge yields a smaller
nonzero crop that is still saved.  What the code does (Python slicing): the
window is clipped only at the high edge; when the center index is below the
buffer (and the axis is at least `2*buffer` long) the slice start wraps
around, the window is empty, and the sample is dropped by the
`0 not in data.shape` guard. -/
theorem c3_crop_window_clipping (n c x b : Nat) :
    (b ≤ c → window n c b = Finset.Ico (c - b) (min (c + b) n) ∧
      (window n c b).card ≤ 2 * b) ∧
    (c < b → 2 * b ≤ n → window n c b = ∅ ∧ cropSaved n n c x b = false) := by
  refine ⟨fun h => ⟨window_eq_of_le n c b h, window_card_le n c b h⟩, fun h1 h2 => ?_⟩
  have he : window n c b = ∅ := window_eq_empty_low n c b h1 h2
  refine ⟨he, ?_⟩
  unfold cropSaved
  apply decide_eq_false
  rw [he]
  rintro ⟨⟨k, hk⟩, -⟩
  exact absurd hk (Finset.not_mem_empty k)

/-- C3, counterexample to the claim as stated: on a 500 × 500 raster with
buffer 10, a center at row 0 does not produce a clipped nonzero crop
`[0, 10)` that is kept — the row slice `[-10 : 10]` is empty under Python
slicing and the sample is dropped. -/
theorem c3_counterexample :
    ¬ (window 500 0 10 = Finset.Ico 0 10 ∧ cropSaved 500 500 0 250 10 = true) := by
  decide

/-- C3, witness: a far-edge center (row 495, buffer 10, axis 500) is clipped
to `[485, 500)`, a crop smaller than `2*buffer`; a low-edge center (row 5)
yields an empty window and a dropped sample. -/
theorem c3_witness :
    (window 500 495 10 = Finset.Ico (495 - 10) (min (495 + 10) 500) ∧
      (window 500 495 10).card ≤ 2 * 10) ∧
    (window 500 5 10 = ∅ ∧ cropSaved 500 500 5 250 10 = false) :=
  ⟨(c3_crop_window_clipping 500 495 250 10).1 (by decide),
   (c3_crop_window_clipping 500 5 250 10).2 (by decide) (by decide)⟩

/-- C5.  The claim says the negative-phase draw bounds keep every negative
crop window inside the raster for every raster.  Because line 102 unpacks
`nx, ny = ds.Rad.shape` with the components swapped, the draw bounds use
the wrong axis lengths and the guarantee only holds for square rasters: for
a square raster every draw satisfying the `randint` bounds has a full,
unclipped, in-bounds crop window in both axes. -/
theorem c5_negative_draw_in_bounds_square (n b xInd yInd : Nat)
    (hx1 : b ≤ xInd) (hx2 : xInd + b < nxOf n n)
    (hy1 : b ≤ yInd) (hy2 : yInd + b < nyOf n n) :
    negCropUnclipped n n yInd xInd b := by
  unfold nxOf at hx2
  unfold nyOf at hy2
  exact ⟨window_eq_full n yInd b hy1 (le_of_lt hy2), le_of_lt hy2,
    window_eq_full n xInd b hx1 (le_of_lt hx2), le_of_lt hx2⟩

/-- C5, counterexample to the claim as stated: on a 4 × 100 raster with
buffer 1 the draw `xInd = 1, yInd = 50` satisfies the code's
`randint(buffer, nx-buffer)` / `randint(buffer, ny-buffer)` bounds, yet its
crop window is not inside the raster (row window `[50-1, 50+1)` is far past
the 4 rows). -/
theorem c5_counterexample :
    (1 ≤ 1 ∧ 1 + 1 < nxOf 4 100 ∧ 1 ≤ 50 ∧ 50 + 1 < nyOf 4 100) ∧
    ¬ negCropUnclipped 4 100 50 1 1 := by
  constructor
  · decide
  · unfold negCropUnclipped
    decide

/-- C5, witness: on a 100 × 100 raster with buffer 10, the draw
`(xInd, yInd) = (30, 40)` gives an unclipped in-bounds window. -/
theorem c5_witness : negCropUnclipped 100 100 40 30 10 :=
  c5_negative_draw_in_bounds_square 100 10 30 40 (by decide) (by decide)
    (by decide) (by decide)

/-- C6.  The claim says that after `mark` on any window, `isFree` on that
same window is false, and `mark` is idempotent.  The first part fails for
windows that are empty under Python slicing (e.g. a center within `buffer`
of the low edge): nothing is marked and `isFree` stays vacuously true.
Amended: whenever the window is non-empty in both axes, `isFree` after
`mark` is false; and `mark` is idempotent for every window. -/
theorem c6_mark_isfree_idempotent (rows cols y x b : Nat) (f : Nat → Nat → Bool) :
    ((window (nyOf rows cols) y b).Nonempty → (window (nxOf rows cols) x b).Nonempty →
      isFree rows cols (markFree rows cols f y x b) y x b = false) ∧
    markFree rows cols (markFree rows cols f y x b) y x b =
      markFree rows cols f y x b := by
  constructor
  · rintro ⟨i, hi⟩ ⟨j, hj⟩
    unfold isFree
    apply decide_eq_false
    intro hall
    have hmem : (i, j) ∈ freeWindow rows cols y x b :=
      Finset.mem_product.mpr ⟨hi, hj⟩
    have hval := hall (i, j) hmem
    simp [markFree, hi, hj] at hval
  · funext i j
    by_cases h : i ∈ window (nyOf rows cols) y b ∧ j ∈ window (nxOf rows cols) x b <;>
      simp [markFree, h]

/-- C6, counterexample to the claim as stated: on a 5 × 5 grid, window
center `(0, 0)` with buffer 1 has an empty Python slice, so after `mark`
the `isFree` test on the same window still returns true, not false. -/
theorem c6_counterexample :
    ¬ (isFree 5 5 (markFree 5 5 initFree 0 0 1) 0 0 1 = false) := by
  decide

/-- C6, witness: on a 5 × 5 grid with the interior window centered at
`(2, 2)`, buffer 1, `isFree` after `mark` is false, and marking twice
equals marking once. -/
theorem c6_witness :
    isFree 5 5 (markFree 5 5 initFree 2 2 1) 2 2 1 = false ∧
    markFree 5 5 (markFree 5 5 initFree 2 2 1) 2 2 1 =
      markFree 5 5 initFree 2 2 1 :=
  ⟨(c6_mark_isfree_idempotent 5 5 2 2 1 initFree).1 (by decide) (by decide),
   (c6_mark_isfree_idempotent 5 5 2 2 1 initFree).2⟩

/-- C9.  The claim says the occupancy mask has the same shape as the
raster.  Because line 102 swaps `nx` and `ny`, `np.ones((ny, nx))` has the
raster's shape with the axes swapped — equal to the raster's shape only
when the raster is square.  The mask is created fresh with every cell free
(no cell marked). -/
theorem c9_mask_swapped_shape_fresh (rows cols : Nat) :
    freeShape rows cols = (cols, rows) ∧
    (∀ i j, initState.free i j = true) ∧
    markedSet rows cols initState.free = ∅ := by
  refine ⟨rfl, fun i j => rfl, ?_⟩
  ext p
  simp [markedSet, initState, initFree]

/-- C9, counterexample to the claim as stated: for a raster of shape
`(2, 3)` the mask shape is `(3, 2)`, not the raster's shape. -/
theorem c9_counterexample : ¬ (freeShape 2 3 = (2, 3)) := by
  decide

/-- C10.  Every draw of the negative phase that satisfies the `randint`
bounds on a square raster — in particular every accepted one — yields a
full-size `(2*buffer) × (2*buffer)` crop, never clipped. -/
theorem c10_negative_crop_full_size (n b xInd yInd : Nat) (f : Nat → Nat → Bool)
    (hacc : isFree n n f yInd xInd b = true)
    (hx1 : b ≤ xInd) (hx2 : xInd + b < n) (hy1 : b ≤ yInd) (hy2 : yInd + b < n) :
    cropShape n n yInd xInd b = (2 * b, 2 * b) := by
  unfold cropShape
  rw [window_eq_full n yInd b hy1 (le_of_lt hy2),
    window_eq_full n xInd b hx1 (le_of_lt hx2), Nat.card_Ico, Nat.card_Ico]
  simp only [Prod.mk.injEq]
  omega

/-- C10, witness: on a 10 × 10 raster with buffer 2, the accepted draw at
`(5, 5)` on a fresh mask yields a 4 × 4 crop. -/
theorem c10_witness : cropShape 10 10 5 5 2 = (2 * 2, 2 * 2) :=
  c10_negative_crop_full_size 10 2 5 5 initFree (by decide) (by decide)
    (by decide) (by decide) (by decide)

/-! ### Helper lemmas about the nearest-value search -/

theorem absQ_eq_abs (q : ℚ) : absQ q = |q| := by
  unfold absQ
  split
  · rw [abs_of_neg]
    assumption
  · rw [abs_of_nonneg (le_of_not_lt (by assumption))]

theorem nanargmin_ne_none (t a : ℚ) (l : List ℚ) : nanargmin t (a :: l) ≠ none := by
  cases hrec : nanargmin t l with
  | none => simp [nanargmin, hrec]
  | some jm =>
    obtain ⟨j, m⟩ := jm
    simp only [nanargmin, hrec]
    by_cases hle : absQ (a - t) ≤ m
    · rw [if_pos hle]
      simp
    · rw [if_neg hle]
      simp

theorem nanargmin_some_of_cons (t a : ℚ) (l : List ℚ) :
    ∃ i m, nanargmin t (a :: l) = some (i, m) := by
  cases hrec : nanargmin t l with
  | none => exact ⟨0, absQ (a - t), by simp [nanargmin, hrec]⟩
  | some jm =>
    obtain ⟨j, m⟩ := jm
    by_cases hle : absQ (a - t) ≤ m
    · exact ⟨0, absQ (a - t), by simp only [nanargmin, hrec]; rw [if_pos hle]⟩
    · exact ⟨j + 1, m, by simp only [nanargmin, hrec]; rw [if_neg hle]⟩

theorem nanargmin_spec (t : ℚ) :
    ∀ (xs : List ℚ) (i : Nat) (m : ℚ), nanargmin t xs = some (i, m) →
      i < xs.length ∧ m = absQ (xs.getD i 0 - t) ∧
      (∀ j, j < xs.length → m ≤ absQ (xs.getD j 0 - t)) ∧
      (∀ j, j < i → m < absQ (xs.getD j 0 - t)) := by
  intro xs
  induction xs with
  | nil =>
    intro i m h
    simp [nanargmin] at h
  | cons a l ih =>
    intro i m h
    cases hrec : nanargmin t l with
    | none =>
      simp only [nanargmin, hrec] at h
      simp only [Option.some.injEq, Prod.mk.injEq] at h
      obtain ⟨hi, hm⟩ := h
      subst hi
      subst hm
      have hl : l = [] := by
        cases l with
        | nil => rfl
        | cons c cs => exact absurd hrec (nanargmin_ne_none t c cs)
      subst hl
      refine ⟨by simp, by simp, ?_, ?_⟩
      · intro j hj
        simp only [List.length_cons, List.length_nil] at hj
        have hj0 : j = 0 := by omega
        subst hj0
        simp
      · intro j hj
        exact absurd hj (Nat.not_lt_zero j)
    | some jm =>
      obtain ⟨j0, m0⟩ := jm
      simp only [nanargmin, hrec] at h
      obtain ⟨h1, h2, h3, h4⟩ := ih j0 m0 hrec
      by_cases hle : absQ (a - t) ≤ m0
      · rw [if_pos hle] at h
        simp only [Option.some.injEq, Prod.mk.injEq] at h
        obtain ⟨hi, hm⟩ := h
        subst hi
        subst hm
        refine ⟨by simp, by simp, ?_, ?_⟩
        · intro j hj
          cases j with
          | zero => simp
          | succ k =>
            simp only [List.getD_cons_succ]
            simp only [List.length_cons] at hj
            exact le_trans hle (h3 k (Nat.lt_of_succ_lt_succ hj))
        · intro j hj
          exact absurd hj (Nat.not_lt_zero j)
      · rw [if_neg hle] at h
        simp only [Option.some.injEq, Prod.mk.injEq] at h
        obtain ⟨hi, hm⟩ := h
        subst hi
        subst hm
        push_neg at hle
        refine ⟨by simpa using h1, by simpa using h2, ?_, ?_⟩
        · intro j hj
          cases j with
          | zero => simpa using le_of_lt hle
          | succ k =>
            simp only [List.getD_cons_succ]
            simp only [List.length_cons] at hj
            exact h3 k (Nat.lt_of_succ_lt_succ hj)
        · intro j hj
          cases j with
          | zero => simpa using hle
          | succ k =>
            simp only [List.getD_cons_succ]
            exact h4 k (Nat.lt_of_succ_lt_succ hj)

/-- C7.  The pixel locator resolves each axis independently to the index of
the minimum absolute difference, and on ties it returns the first
occurrence of the minimum: every earlier index has a strictly larger
absolute difference. -/
theorem c7_pixel_locator_argmin (xs ys : List ℚ) (tX tY : ℚ) (xi yi : Nat)
    (h : pixelLocate xs ys tX tY = some (xi, yi)) :
    (xi < xs.length ∧
      (∀ j, j < xs.length → |xs.getD xi 0 - tX| ≤ |xs.getD j 0 - tX|) ∧
      (∀ j, j < xi → |xs.getD xi 0 - tX| < |xs.getD j 0 - tX|)) ∧
    (yi < ys.length ∧
      (∀ j, j < ys.length → |ys.getD yi 0 - tY| ≤ |ys.getD j 0 - tY|) ∧
      (∀ j, j < yi → |ys.getD yi 0 - tY| < |ys.getD j 0 - tY|)) := by
  cases hx : nanargmin tX xs with
  | none =>
    simp [pixelLocate, hx] at h
  | some xim =>
    obtain ⟨xi0, mx⟩ := xim
    cases hy : nanargmin tY ys with
    | none =>
      simp [pixelLocate, hx, hy] at h
    | some yim =>
      obtain ⟨yi0, my⟩ := yim
      simp only [pixelLocate, hx, hy] at h
      simp only [Option.some.injEq, Prod.mk.injEq] at h
      obtain ⟨h1, h2⟩ := h
      subst h1
      subst h2
      obtain ⟨ha1, ha2, ha3, ha4⟩ := nanargmin_spec tX xs xi0 mx hx
      obtain ⟨hb1, hb2, hb3, hb4⟩ := nanargmin_spec tY ys yi0 my hy
      rw [ha2] at ha3 ha4
      rw [hb2] at hb3 hb4
      simp only [absQ_eq_abs] at ha3 ha4 hb3 hb4
      exact ⟨⟨ha1, ha3, ha4⟩, ⟨hb1, hb3, hb4⟩⟩

/-- C7, witness: axis `[5, 2, 2, 9]` with target 3 has two tied minima at
indices 1 and 2; the locator returns index 1, the first occurrence, and
axis `[0, 4]` with target 4 returns index 1. -/
theorem c7_witness :
    (1 < [(5 : ℚ), 2, 2, 9].length ∧
      (∀ j, j < [(5 : ℚ), 2, 2, 9].length →
        |[(5 : ℚ), 2, 2, 9].getD 1 0 - 3| ≤ |[(5 : ℚ), 2, 2, 9].getD j 0 - 3|) ∧
      (∀ j, j < 1 →
        |[(5 : ℚ), 2, 2, 9].getD 1 0 - 3| < |[(5 : ℚ), 2, 2, 9].getD j 0 - 3|)) ∧
    (1 < [(0 : ℚ), 4].length ∧
      (∀ j, j < [(0 : ℚ), 4].length →
        |[(0 : ℚ), 4].getD 1 0 - 4| ≤ |[(0 : ℚ), 4].getD j 0 - 4|) ∧
      (∀ j, j < 1 →
        |[(0 : ℚ), 4].getD 1 0 - 4| < |[(0 : ℚ), 4].getD j 0 - 4|)) :=
  c7_pixel_locator_argmin [5, 2, 2, 9] [0, 4] 3 4 1 1
    (by simp only [pixelLocate, nanargmin, absQ]; norm_num)

/-- C8.  For any projection output whatsoever — in particular for every
(longitude, latitude) in the visible disc — the pixel locator returns row
and column indices within the raster's axis bounds, provided the axes are
non-empty (as they are for a real raster). -/
theorem c8_locate_of_project_in_bounds (project : ℚ → ℚ → ℚ × ℚ) (lon lat : ℚ)
    (xs ys : List ℚ) (hx : xs ≠ []) (hy : ys ≠ []) :
    ∃ xi yi,
      pixelLocate xs ys (project lon lat).1 (project lon lat).2 = some (xi, yi) ∧
      xi < xs.length ∧ yi < ys.length := by
  cases xs with
  | nil => exact absurd rfl hx
  | cons a l =>
    cases ys with
    | nil => exact absurd rfl hy
    | cons c k =>
      obtain ⟨xi, mx, hxs⟩ := nanargmin_some_of_cons (project lon lat).1 a l
      obtain ⟨yi, my, hys⟩ := nanargmin_some_of_cons (project lon lat).2 c k
      refine ⟨xi, yi, ?_, ?_, ?_⟩
      · unfold pixelLocate
        rw [hxs, hys]
      · exact (nanargmin_spec (project lon lat).1 (a :: l) xi mx hxs).1
      · exact (nanargmin_spec (project lon lat).2 (c :: k) yi my hys).1

/-- C8, witness: a concrete projection output resolved against concrete
non-empty axes yields in-bounds indices. -/
theorem c8_witness :
    ∃ xi yi,
      pixelLocate [(5 : ℚ), 2, 2, 9] [(0 : ℚ), 4] (3 : ℚ) (4 : ℚ) = some (xi, yi) ∧
      xi < [(5 : ℚ), 2, 2, 9].length ∧ yi < [(0 : ℚ), 4].length :=
  c8_locate_of_project_in_bounds (fun _ _ => ((3 : ℚ), (4 : ℚ))) 0 0
    [5, 2, 2, 9] [0, 4] (by simp) (by simp)

/-! ### Helper lemmas about the negative-sampling loop -/

theorem negIter_attemptCount (rows cols b : Nat) (draws : Nat → Nat × Nat) (s : SampState) :
    (negIter rows cols b draws s).attemptCount = s.attemptCount + 1 := rfl

theorem negLoopF_succ (rows cols b target maxA : Nat) (draws : Nat → Nat × Nat)
    (fuel : Nat) (s : SampState) :
    negLoopF rows cols b target maxA draws (fuel + 1) s =
      if s.negCount < target then
        if maxA < (negIter rows cols b draws s).attemptCount then
          negIter rows cols b draws s
        else negLoopF rows cols b target maxA draws fuel (negIter rows cols b draws s)
      else s := rfl

theorem negLoopF_attempt_le (rows cols b target maxA : Nat) (draws : Nat → Nat × Nat) :
    ∀ (fuel : Nat) (s : SampState), s.attemptCount ≤ maxA →
      (negLoopF rows cols b target maxA draws fuel s).attemptCount ≤ maxA + 1 := by
  intro fuel
  induction fuel with
  | zero =>
    intro s h
    exact Nat.le_succ_of_le h
  | succ fuel ih =>
    intro s h
    rw [negLoopF_succ]
    by_cases hc : s.negCount < target
    · rw [if_pos hc]
      have hI := negIter_attemptCount rows cols b draws s
      by_cases hbig : maxA < (negIter rows cols b draws s).attemptCount
      · rw [if_pos hbig]
        omega
      · rw [if_neg hbig]
        exact ih (negIter rows cols b draws s) (by omega)
    · rw [if_neg hc]
      exact Nat.le_succ_of_le h

theorem negLoopF_exit (rows cols b target maxA : Nat) (draws : Nat → Nat × Nat) :
    ∀ (fuel : Nat) (s : SampState), s.attemptCount ≤ maxA →
      maxA + 1 ≤ s.attemptCount + fuel →
      target ≤ (negLoopF rows cols b target maxA draws fuel s).negCount ∨
        maxA < (negLoopF rows cols b target maxA draws fuel s).attemptCount := by
  intro fuel
  induction fuel with
  | zero =>
    intro s h1 h2
    exact absurd h2 (by omega)
  | succ fuel ih =>
    intro s h1 h2
    rw [negLoopF_succ]
    by_cases hc : s.negCount < target
    · rw [if_pos hc]
      have hI := negIter_attemptCount rows cols b draws s
      by_cases hbig : maxA < (negIter rows cols b draws s).attemptCount
      · rw [if_pos hbig]
        exact Or.inr hbig
      · rw [if_neg hbig]
        exact ih (negIter rows cols b draws s) (by omega) (by omega)
    · rw [if_neg hc]
      exact Or.inl (by omega)

theorem negLoopF_stable_succ (rows cols b target maxA : Nat) (draws : Nat → Nat × Nat) :
    ∀ (fuel : Nat) (s : SampState), s.attemptCount ≤ maxA →
      maxA + 1 ≤ s.attemptCount + fuel →
      negLoopF rows cols b target maxA draws (fuel + 1) s =
        negLoopF rows cols b target maxA draws fuel s := by
  intro fuel
  induction fuel with
  | zero =>
    intro s h1 h2
    exact absurd h2 (by omega)
  | succ fuel ih =>
    intro s h1 h2
    conv_lhs => rw [negLoopF_succ]
    conv_rhs => rw [negLoopF_succ]
    by_cases hc : s.negCount < target
    · rw [if_pos hc, if_pos hc]
      have hI := negIter_attemptCount rows cols b draws s
      by_cases hbig : maxA < (negIter rows cols b draws s).attemptCount
      · rw [if_pos hbig, if_pos hbig]
      · rw [if_neg hbig, if_neg hbig]
        exact ih (negIter rows cols b draws s) (by omega) (by omega)
    · rw [if_neg hc, if_neg hc]

theorem negLoopF_stable_add (rows cols b target maxA : Nat) (draws : Nat → Nat × Nat)
    (s : SampState) (h : s.attemptCount = 0) :
    ∀ k, negLoopF rows cols b target maxA draws (maxA + 1 + k) s =
      negLoopF rows cols b target maxA draws (maxA + 1) s := by
  intro k
  induction k with
  | zero => rfl
  | succ k ih =>
    have he : maxA + 1 + (k + 1) = (maxA + 1 + k) + 1 := by omega
    rw [he, negLoopF_stable_succ rows cols b target maxA draws (maxA + 1 + k) s
      (by omega) (by omega), ih]

/-- C2.  The claim says the negative-sampling loop always terminates within
`5 * target` attempts.  It does always terminate, but because the attempt
counter is tested only after the loop body runs, the loop can make
`5 * target + 1` attempts (one more than claimed).  Amended: from the
program's entry state (`attemptCount = 0`) the loop terminates within
`5 * target + 1` attempts: the attempt count of the final state is at most
`5 * target + 1`, the final state satisfies one of the two exit conditions,
and giving the loop any amount of extra fuel does not change the result. -/
theorem c2_negative_loop_terminates_bound (rows cols b target : Nat)
    (draws : Nat → Nat × Nat) (s : SampState) (h : s.attemptCount = 0) :
    (negPhase rows cols b target draws s).attemptCount ≤ 5 * target + 1 ∧
    (target ≤ (negPhase rows cols b target draws s).negCount ∨
      5 * target < (negPhase rows cols b target draws s).attemptCount) ∧
    ∀ k, negLoopF rows cols b target (5 * target) draws (5 * target + 1 + k) s =
      negPhase rows cols b target draws s := by
  unfold negPhase
  exact ⟨negLoopF_attempt_le rows cols b target (5 * target) draws (5 * target + 1) s
      (by omega),
    negLoopF_exit rows cols b target (5 * target) draws (5 * target + 1) s
      (by omega) (by omega),
    negLoopF_stable_add rows cols b target (5 * target) draws s h⟩

/-- C2, counterexample to the claim as stated: a 4 × 4 raster with buffer 1
whose single positive mark at `(2, 2)` blocks every interior draw; with
target 1 and all draws at `(1, 1)`, the loop makes 6 attempts, exceeding
`5 * target = 5`. -/
theorem c2_counterexample :
    ¬ ((negPhase 4 4 1 1 (fun _ => (1, 1))
        (posStep 4 4 1 2 2 initState)).attemptCount ≤ 5 * 1) := by
  decide

/-- C2, witness: from the fresh state with target 1 on a 4 × 4 raster the
loop's final attempt count is within the amended bound, an exit condition
holds, and extra fuel changes nothing. -/
theorem c2_witness :
    (negPhase 4 4 1 1 (fun _ => (1, 1)) initState).attemptCount ≤ 5 * 1 + 1 ∧
    (1 ≤ (negPhase 4 4 1 1 (fun _ => (1, 1)) initState).negCount ∨
      5 * 1 < (negPhase 4 4 1 1 (fun _ => (1, 1)) initState).attemptCount) ∧
    ∀ k, negLoopF 4 4 1 1 (5 * 1) (fun _ => (1, 1)) (5 * 1 + 1 + k) initState =
      negPhase 4 4 1 1 (fun _ => (1, 1)) initState :=
  c2_negative_loop_terminates_bound 4 4 1 1 (fun _ => (1, 1)) initState rfl

/-! ### Helper lemmas about the occupancy mask and the sampling invariant -/

theorem markedSet_initFree (rows cols : Nat) : markedSet rows cols initFree = ∅ := by
  ext p
  simp [markedSet, initFree]

theorem markedSet_markFree (rows cols : Nat) (f : Nat → Nat → Bool) (y x b : Nat) :
    markedSet rows cols (markFree rows cols f y x b) =
      markedSet rows cols f ∪ freeWindow rows cols y x b := by
  ext p
  obtain ⟨i, j⟩ := p
  simp only [markedSet, markFree, freeWindow, Finset.mem_filter, Finset.mem_union,
    Finset.mem_product, Finset.mem_range]
  by_cases hw : i ∈ window (nyOf rows cols) y b ∧ j ∈ window (nxOf rows cols) x b
  · have hi := Finset.mem_range.mp (window_subset_range (nyOf rows cols) y b hw.1)
    have hj := Finset.mem_range.mp (window_subset_range (nxOf rows cols) x b hw.2)
    simp [hw, hi, hj]
  · simp [hw]

theorem disjoint_freeWindow_marked (rows cols : Nat) (f : Nat → Nat → Bool)
    (y x b : Nat) (h : isFree rows cols f y x b = true) :
    Disjoint (freeWindow rows cols y x b) (markedSet rows cols f) := by
  unfold isFree at h
  rw [Finset.disjoint_left]
  intro p hp hpm
  have h1 := of_decide_eq_true h p hp
  have h2 := (Finset.mem_filter.mp hpm).2
  rw [h1] at h2
  simp at h2

theorem unionFoot_cons (F : Finset (Nat × Nat)) (l : List (Finset (Nat × Nat))) :
    unionFoot (F :: l) = F ∪ unionFoot l := rfl

theorem mem_subset_unionFoot (F : Finset (Nat × Nat)) (l : List (Finset (Nat × Nat)))
    (h : F ∈ l) : F ⊆ unionFoot l := by
  induction l with
  | nil => simp at h
  | cons G t ih =>
    rw [unionFoot_cons]
    rcases List.mem_cons.mp h with rfl | h2
    · exact Finset.subset_union_left
    · exact (ih h2).trans Finset.subset_union_right

theorem radWindow_empty_of_not_saved (rows cols y x b : Nat)
    (h : cropSaved rows cols y x b = false) :
    radWindow rows cols y x b = ∅ := by
  unfold cropSaved at h
  have h2 := of_decide_eq_false h
  unfold radWindow
  by_cases hy : (window rows y b).Nonempty
  · have hx : ¬ (window cols x b).Nonempty := fun hx => h2 ⟨hy, hx⟩
    rw [Finset.not_nonempty_iff_eq_empty.mp hx, Finset.product_empty]
  · rw [Finset.not_nonempty_iff_eq_empty.mp hy, Finset.empty_product]

theorem radWindow_eq_freeWindow (n y x b : Nat) :
    radWindow n n y x b = freeWindow n n y x b := rfl

theorem posStep_invariant (n b y x : Nat) (s : SampState)
    (hm : markedSet n n s.free = unionFoot s.posFoot) (hn : s.negFoot = []) :
    markedSet n n (posStep n n b y x s).free = unionFoot (posStep n n b y x s).posFoot ∧
      (posStep n n b y x s).negFoot = [] := by
  have hfoot : (posStep n n b y x s).posFoot =
      if cropSaved n n y x b then radWindow n n y x b :: s.posFoot else s.posFoot := rfl
  have hfree : (posStep n n b y x s).free = markFree n n s.free y x b := rfl
  refine ⟨?_, hn⟩
  rw [hfree, hfoot, markedSet_markFree, hm]
  by_cases hs : cropSaved n n y x b = true
  · rw [if_pos hs, unionFoot_cons, radWindow_eq_freeWindow, Finset.union_comm]
  · have hs2 : cropSaved n n y x b = false := by
      revert hs
      cases cropSaved n n y x b <;> simp
    rw [if_neg hs, ← radWindow_eq_freeWindow, radWindow_empty_of_not_saved n n y x b hs2,
      Finset.union_empty]

theorem reachP_invariant (n b : Nat) (s : SampState) (h : ReachP n n b s) :
    markedSet n n s.free = unionFoot s.posFoot ∧ s.negFoot = [] := by
  induction h with
  | init => exact ⟨markedSet_initFree n n, rfl⟩
  | pos s yInd xInd hs hy hx ih => exact posStep_invariant n b yInd xInd s ih.1 ih.2

theorem negAttempt_accept (rows cols b x y : Nat) (s : SampState)
    (hf : isFree rows cols s.free y x b = true) :
    negAttempt rows cols b x y s =
      ⟨markFree rows cols s.free y x b, s.posFoot,
        if cropSaved rows cols y x b then radWindow rows cols y x b :: s.negFoot
        else s.negFoot,
        s.negCount + 1, s.attemptCount + 1⟩ := by
  unfold negAttempt negStep
  rw [if_pos hf]

theorem negAttempt_reject (rows cols b x y : Nat) (s : SampState)
    (hf : ¬ isFree rows cols s.free y x b = true) :
    negAttempt rows cols b x y s =
      ⟨s.free, s.posFoot, s.negFoot, s.negCount, s.attemptCount + 1⟩ := by
  unfold negAttempt negStep
  rw [if_neg hf]

theorem negAttempt_invariant (n b x y : Nat) (s : SampState) (h : C1Inv n n s) :
    C1Inv n n (negAttempt n n b x y s) := by
  obtain ⟨hm, hp, hd⟩ := h
  by_cases hf : isFree n n s.free y x b = true
  · have hdisj : Disjoint (freeWindow n n y x b) (markedSet n n s.free) :=
      disjoint_freeWindow_marked n n s.free y x b hf
    rw [negAttempt_accept n n b x y s hf]
    unfold C1Inv
    dsimp only
    by_cases hs : cropSaved n n y x b = true
    · rw [if_pos hs]
      refine ⟨?_, ?_, ?_⟩
      · rw [markedSet_markFree, hm, unionFoot_cons, radWindow_eq_freeWindow,
          Finset.union_assoc, Finset.union_comm (unionFoot s.negFoot) (freeWindow n n y x b)]
      · refine List.Pairwise.cons ?_ hp
        intro F hF
        rw [radWindow_eq_freeWindow]
        refine hdisj.mono_right ?_
        rw [hm]
        exact (mem_subset_unionFoot F s.negFoot hF).trans Finset.subset_union_right
      · intro F hF G hG
        rcases List.mem_cons.mp hF with rfl | hF2
        · rw [radWindow_eq_freeWindow]
          refine hdisj.mono_right ?_
          rw [hm]
          exact (mem_subset_unionFoot G s.posFoot hG).trans Finset.subset_union_left
        · exact hd F hF2 G hG
    · have hs2 : cropSaved n n y x b = false := by
        revert hs
        cases cropSaved n n y x b <;> simp
      rw [if_neg hs]
      refine ⟨?_, hp, hd⟩
      rw [markedSet_markFree, hm, ← radWindow_eq_freeWindow,
        radWindow_empty_of_not_saved n n y x b hs2, Finset.union_empty]
  · rw [negAttempt_reject n n b x y s hf]
    exact ⟨hm, hp, hd⟩

/-- C1.  The claim says the mask/footprint invariant holds for every
raster.  Because line 102 swaps `nx` and `ny`, on non-square rasters the
mask window and the crop footprint are clipped against different axis
lengths and the invariant fails (see the counterexample).  Amended: for
every square raster, at every reachable point of its processing, the set of
occupied mask cells equals the union of all saved (positive and negative)
crop footprints, the accepted negative footprints are pairwise disjoint,
and each is disjoint from every positive footprint. -/
theorem c1_invariant_square (n b : Nat) (s : SampState) (h : Reach n n b s) :
    C1Inv n n s := by
  induction h with
  | ofPos s hs =>
    obtain ⟨hm, hn⟩ := reachP_invariant n b s hs
    refine ⟨?_, ?_, ?_⟩
    · rw [hn, hm]
      simp [unionFoot]
    · rw [hn]
      exact List.Pairwise.nil
    · rw [hn]
      simp
  | neg s xInd yInd hs hx1 hx2 hy1 hy2 ih =>
    exact negAttempt_invariant n b xInd yInd s ih

/-- C1, counterexample to the claim as stated: on a 2 × 6 raster with
buffer 1, the single positive sample at pixel `(1, 5)` is saved with a
non-empty crop footprint, but because of the swapped shape unpacking the
mask-marking slice is empty — the marked region does not equal the union of
extracted footprints. -/
theorem c1_counterexample :
    ReachP 2 6 1 (posStep 2 6 1 1 5 initState) ∧
    ¬ C1Inv 2 6 (posStep 2 6 1 1 5 initState) := by
  constructor
  · exact ReachP.pos initState 1 5 ReachP.init (by decide) (by decide)
  · intro h
    exact absurd h.1 (by decide)

/-- C1, witness: on a square 4 × 4 raster with buffer 1, the state after
one positive sample at `(2, 2)` and one negative-loop iteration drawn at
`(1, 1)` satisfies the invariant. -/
theorem c1_witness :
    C1Inv 4 4 (negAttempt 4 4 1 1 1 (posStep 4 4 1 2 2 initState)) :=
  c1_invariant_square 4 1 _
    (Reach.neg (posStep 4 4 1 2 2 initState) 1 1
      (Reach.ofPos _ (ReachP.pos initState 2 2 ReachP.init (by decide) (by decide)))
      (by decide) (by decide) (by decide) (by decide))

/-! ### The per-timestamp error isolation of the driver loop -/

theorem runBatch_get (dates : List DateInput) (k : Nat) :
    (runBatch dates)[k]? = (dates[k]?).map processDate := by
  unfold runBatch
  exact List.getElem?_map processDate dates k

/-- C4.  The claim says any error while processing a timestamp leaves zero
samples for it.  That holds for a failed raster fetch, but an artifact-sink
failure part-way through a timestamp aborts only the rest of that
timestamp: samples already persisted remain (see the counterexample).
Amended: every timestamp is processed (an error never aborts the batch, and
each timestamp's outcome depends only on its own inputs); a caught error is
logged; and when the raster fetch fails the timestamp yields zero samples
with the error logged. -/
theorem c4_error_isolation (dates : List DateInput) (k : Nat) (d : DateInput)
    (hd : d.fetchOk = false) :
    (runBatch dates).length = dates.length ∧
    (runBatch dates)[k]? = (dates[k]?).map processDate ∧
    processDate d = ([], true) ∧ dateLog d = ["Error saving image"] := by
  have hp : processDate d = ([], true) := by
    unfold processDate
    rw [hd]
    simp
  refine ⟨?_, runBatch_get dates k, hp, ?_⟩
  · unfold runBatch
    exact List.length_map dates processDate
  · unfold dateLog
    rw [hp]
    simp

/-- C4, counterexample to the claim as stated: a timestamp whose fetch
succeeds but whose second artifact save fails has its error caught and
logged (second component true), yet it emitted one sample, not zero; the
batch still processes the following timestamp. -/
theorem c4_counterexample :
    ((processDate ⟨true, [0, 1], fun n => n == 0⟩).2 = true ∧
      runBatch [⟨true, [0, 1], fun n => n == 0⟩, ⟨true, [7], fun _ => true⟩] =
        [([0], true), ([7], false)]) ∧
    ¬ (processDate ⟨true, [0, 1], fun n => n == 0⟩).1 = [] := by
  refine ⟨⟨?_, ?_⟩, ?_⟩ <;> decide

/-- C4, witness: in a two-timestamp batch whose first fetch fails, every
timestamp is processed, the failed one yields zero samples, and its error
is logged. -/
theorem c4_witness :
    (runBatch [⟨false, [3], fun _ => true⟩, ⟨true, [7], fun _ => true⟩]).length =
      [(⟨false, [3], fun _ => true⟩ : DateInput), ⟨true, [7], fun _ => true⟩].length ∧
    (runBatch [⟨false, [3], fun _ => true⟩, ⟨true, [7], fun _ => true⟩])[0]? =
      (([(⟨false, [3], fun _ => true⟩ : DateInput), ⟨true, [7], fun _ => true⟩])[0]?).map
        processDate ∧
    processDate ⟨false, [3], fun _ => true⟩ = ([], true) ∧
    dateLog ⟨false, [3], fun _ => true⟩ = ["Error saving image"] :=
  c4_error_isolation [⟨false, [3], fun _ => true⟩, ⟨true, [7], fun _ => true⟩] 0
    ⟨false, [3], fun _ => true⟩ rfl

end TCFinder
